import Mathlib

/-!
Shallow embedding of the Whatsapp-Bot repository (src/bas64.handler.ts and
src/server2.ts) for checking the natural-language specification.

JavaScript strings are modelled as lists of Unicode code points (`List Char`).
Each definition mirrors one function of the source; the theorems at the end of
the file settle the frozen claims about the spec.
-/

namespace WhatsappBot

/-- A JavaScript string, modelled as its list of code points. -/
abbrev JStr := List Char

/-! ## Message sanitizer (src/server2.ts, sanitizeMessage, lines 112-122) -/

/-- Code points removed by the first regex replace of `sanitizeMessage`:
`[\u0000-\u0008\u000B\u000C\u000E-\u001F\u007F-\u009F]`. -/
def isRemovedCtrl (c : Char) : Bool :=
  decide (c.toNat ≤ 0x08) || decide (c.toNat = 0x0B) || decide (c.toNat = 0x0C) ||
  (decide (0x0E ≤ c.toNat) && decide (c.toNat ≤ 0x1F)) ||
  (decide (0x7F ≤ c.toNat) && decide (c.toNat ≤ 0x9F))

/-- The byte-order-mark code point removed by the second replace (`﻿`). -/
def isBOM (c : Char) : Bool := decide (c.toNat = 0xFEFF)

/-- The ECMAScript whitespace set used by `String.prototype.trim`:
WhiteSpace (TAB, VT, FF, SP, NBSP, ZWNBSP, Unicode Zs) and LineTerminator
(LF, CR, LS, PS). -/
def isJsWs (c : Char) : Bool :=
  decide (c.toNat = 0x09) || decide (c.toNat = 0x0A) || decide (c.toNat = 0x0B) ||
  decide (c.toNat = 0x0C) || decide (c.toNat = 0x0D) || decide (c.toNat = 0x20) ||
  decide (c.toNat = 0xA0) || decide (c.toNat = 0x1680) ||
  (decide (0x2000 ≤ c.toNat) && decide (c.toNat ≤ 0x200A)) ||
  decide (c.toNat = 0x2028) || decide (c.toNat = 0x2029) ||
  decide (c.toNat = 0x202F) || decide (c.toNat = 0x205F) ||
  decide (c.toNat = 0x3000) || decide (c.toNat = 0xFEFF)

/-- Drop the longest suffix whose elements satisfy `p`. -/
def dropTrailing (p : α → Bool) (l : List α) : List α :=
  (l.reverse.dropWhile p).reverse

/-- `String.prototype.trim`: drop leading and trailing JS whitespace. -/
def jsTrim (l : JStr) : JStr :=
  dropTrailing isJsWs (l.dropWhile isJsWs)

/-- `sanitizeMessage` (src/server2.ts lines 112-122): guard against a falsy
argument, remove the control-character ranges, remove the BOM, then trim. -/
def sanitizeMessage (s : JStr) : JStr :=
  if s = [] then []
  else jsTrim ((s.filter (fun c => !isRemovedCtrl c)).filter (fun c => !isBOM c))

/-! ### Lemmas about dropWhile / dropTrailing / jsTrim -/

theorem dropWhile_self (p : α → Bool) (l : List α) :
    (l.dropWhile p).dropWhile p = l.dropWhile p := by
  induction l with
  | nil => rfl
  | cons a t ih =>
    by_cases h : p a = true
    · simp [List.dropWhile, h, ih]
    · simp [List.dropWhile, h]

theorem dropWhile_head_false (p : α → Bool) (l : List α) {c : α} {t : List α}
    (h : l.dropWhile p = c :: t) : p c = false := by
  induction l with
  | nil => simp at h
  | cons a s ih =>
    by_cases ha : p a = true
    · rw [List.dropWhile_cons_of_pos ha] at h
      exact ih h
    · rw [List.dropWhile_cons_of_neg ha] at h
      cases h
      simpa using ha

theorem dropTrailing_isPre (p : α → Bool) (l : List α) :
    dropTrailing p l <+: l := by
  obtain ⟨t, ht⟩ := List.dropWhile_suffix (l := l.reverse) p
  refine ⟨t.reverse, ?_⟩
  have := congrArg List.reverse ht
  simpa [dropTrailing, List.reverse_append] using this

theorem dropTrailing_self (p : α → Bool) (l : List α) :
    dropTrailing p (dropTrailing p l) = dropTrailing p l := by
  unfold dropTrailing
  rw [List.reverse_reverse, dropWhile_self]

theorem dropWhile_dropTrailing (p : α → Bool) (l : List α) :
    (dropTrailing p (l.dropWhile p)).dropWhile p = dropTrailing p (l.dropWhile p) := by
  cases hd : dropTrailing p (l.dropWhile p) with
  | nil => rfl
  | cons h t =>
    obtain ⟨r, hr⟩ := dropTrailing_isPre p (l.dropWhile p)
    rw [hd] at hr
    have hph : p h = false := dropWhile_head_false p l (by rw [← hr]; rfl)
    rw [List.dropWhile_cons_of_neg (by simp [hph])]

theorem jsTrim_idem (l : JStr) : jsTrim (jsTrim l) = jsTrim l := by
  unfold jsTrim
  rw [dropWhile_dropTrailing, dropTrailing_self]

theorem jsTrim_sublist (l : JStr) : List.Sublist (jsTrim l) l :=
  ((dropTrailing_isPre isJsWs (l.dropWhile isJsWs)).sublist).trans
    (List.dropWhile_sublist isJsWs)

theorem jsTrim_head (l : JStr) {c : Char} (h : (jsTrim l).head? = some c) :
    isJsWs c = false := by
  cases hd : jsTrim l with
  | nil => rw [hd] at h; simp at h
  | cons a t =>
    rw [hd] at h
    simp only [List.head?_cons, Option.some.injEq] at h
    have heq : (jsTrim l).dropWhile isJsWs = jsTrim l := by
      unfold jsTrim; exact dropWhile_dropTrailing isJsWs l
    rw [hd] at heq
    have := dropWhile_head_false isJsWs (a :: t) heq
    rw [← h]
    exact this

theorem jsTrim_getLast (l : JStr) {c : Char} (h : (jsTrim l).getLast? = some c) :
    isJsWs c = false := by
  unfold jsTrim dropTrailing at h
  rw [List.getLast?_reverse] at h
  cases hd : (l.dropWhile isJsWs).reverse.dropWhile isJsWs with
  | nil => rw [hd] at h; simp at h
  | cons a t =>
    rw [hd] at h
    simp only [List.head?_cons, Option.some.injEq] at h
    subst h
    exact dropWhile_head_false isJsWs _ hd

/-! ### Lemmas about sanitizeMessage -/

theorem sanitize_mem {x : JStr} {c : Char} (h : c ∈ sanitizeMessage x) :
    isRemovedCtrl c = false ∧ isBOM c = false := by
  unfold sanitizeMessage at h
  by_cases hx : x = []
  · simp [hx] at h
  · rw [if_neg hx] at h
    have hmem := (jsTrim_sublist _).subset h
    have h2 := List.mem_filter.mp hmem
    have h1 := List.mem_filter.mp h2.1
    constructor
    · simpa using h1.2
    · simpa using h2.2

theorem sanitize_nil : sanitizeMessage [] = [] := rfl

theorem sanitize_ne_nil_def {y : JStr} (hy : y ≠ []) :
    sanitizeMessage y =
      jsTrim ((y.filter (fun c => !isRemovedCtrl c)).filter (fun c => !isBOM c)) := by
  simp only [sanitizeMessage, if_neg hy]

theorem sanitize_filter_eq {x : JStr} :
    ((sanitizeMessage x).filter (fun c => !isRemovedCtrl c)).filter (fun c => !isBOM c)
      = sanitizeMessage x := by
  have h1 : (sanitizeMessage x).filter (fun c => !isRemovedCtrl c) = sanitizeMessage x := by
    rw [List.filter_eq_self]
    intro a ha
    simp [(sanitize_mem ha).1]
  rw [h1, List.filter_eq_self]
  intro a ha
  simp [(sanitize_mem ha).2]

/-! ## String helpers shared by the handler (JS built-ins) -/

/-- Prepend a character to the first chunk of a split result
(helper for `String.prototype.split`). -/
def consHead (a : Char) : List JStr → List JStr
  | [] => [[a]]
  | h :: t => (a :: h) :: t

/-- `String.prototype.split(sep)` with a one-character separator: splits at
every occurrence, yielding one more chunk than there are separators. -/
def splitOnChar (c : Char) : JStr → List JStr
  | [] => [[]]
  | a :: rest =>
    if a = c then [] :: splitOnChar c rest
    else consHead a (splitOnChar c rest)

theorem splitOnChar_ne_nil (c : Char) (l : JStr) : splitOnChar c l ≠ [] := by
  induction l with
  | nil => simp [splitOnChar]
  | cons a rest ih =>
    by_cases h : a = c
    · simp [splitOnChar, h]
    · simp only [splitOnChar, if_neg h]
      cases splitOnChar c rest with
      | nil => simp [consHead]
      | cons x xs => simp [consHead]

theorem splitOnChar_length (c : Char) (l : JStr) :
    (splitOnChar c l).length = l.count c + 1 := by
  induction l with
  | nil => simp [splitOnChar]
  | cons a rest ih =>
    by_cases h : a = c
    · simp [splitOnChar, h, List.count_cons, ih]
    · simp only [splitOnChar, if_neg h, List.count_cons]
      have hne := splitOnChar_ne_nil c rest
      cases hs : splitOnChar c rest with
      | nil => exact absurd hs hne
      | cons x xs =>
        simp only [consHead, List.length_cons]
        rw [hs] at ih
        simp only [List.length_cons] at ih
        simp [ih, h]

/-- `Date.now()` and status codes rendered to text (template-literal
interpolation of a number). -/
def natToChars (n : Nat) : JStr := Nat.toDigits 10 n

/-! ## Base64 validation (src/bas64.handler.ts, isValidBase64, lines 53-67) -/

/-- A character of the base64 alphabet `[A-Za-z0-9+/]`. -/
def isB64Char (c : Char) : Bool :=
  c.isAlpha || c.isDigit || c == '+' || c == '/'

/-- The test of the regex `^[A-Za-z0-9+/]*={0,2}$`: after removing a trailing
run of at most two padding characters, every character is in the alphabet. -/
def base64RegexTest (s : JStr) : Bool :=
  let body := (s.reverse.dropWhile (fun c => c == '=')).reverse
  decide (s.length - body.length ≤ 2) && body.all isB64Char

/-- `isValidBase64`: regex test, then a decode that (in Node) never throws for
a string argument, so the function reduces to the regex test. -/
def isValidBase64 (s : JStr) : Bool := base64RegexTest s

/-- Instrumented `isValidBase64` that also counts how many times the base64
decoder (`Buffer.from(str, "base64")`) is invoked: the decode on line 62 runs
only after the regex test has passed. -/
def isValidBase64Count (s : JStr) : Bool × Nat :=
  if base64RegexTest s then (true, 1) else (false, 0)

/-- Number of bytes produced by Node's forgiving base64 decoder on a string
that passes the alphabet regex: `floor(3 * (number of non-padding chars) / 4)`. -/
def decodedLen (s : JStr) : Nat :=
  (s.filter (fun c => !(c == '='))).length * 3 / 4

/-! ## Extension table (src/bas64.handler.ts, getExtensionFromMimetype, 70-93) -/

/-- The static mimetype-to-extension table. -/
def mimetypeMap : List (JStr × JStr) :=
  [("image/jpeg".toList, "jpg".toList),
   ("image/jpg".toList, "jpg".toList),
   ("image/png".toList, "png".toList),
   ("image/gif".toList, "gif".toList),
   ("image/webp".toList, "webp".toList),
   ("image/bmp".toList, "bmp".toList),
   ("image/svg+xml".toList, "svg".toList),
   ("image/tiff".toList, "tiff".toList),
   ("video/mp4".toList, "mp4".toList),
   ("video/avi".toList, "avi".toList),
   ("video/mov".toList, "mov".toList),
   ("audio/mp3".toList, "mp3".toList),
   ("audio/wav".toList, "wav".toList),
   ("audio/ogg".toList, "ogg".toList),
   ("application/pdf".toList, "pdf".toList),
   ("application/msword".toList, "doc".toList),
   ("application/vnd.openxmlformats-officedocument.wordprocessingml.document".toList,
    "docx".toList)]

/-- `String.prototype.toLowerCase` restricted to the ASCII letters that occur
in MIME type strings. -/
def toLowerJs (s : JStr) : JStr := s.map Char.toLower

/-- JS `a || b` for strings: keep `a` unless it is falsy (empty). -/
def jsOrStr (a b : JStr) : JStr := if a.isEmpty then b else a

/-- JS `a || b` when `a` is an optional string field: `undefined` and the
empty string are both falsy. -/
def jsOrOpt (a : Option JStr) (b : JStr) : JStr :=
  match a with
  | some s => if s.isEmpty then b else s
  | none => b

/-- A value produced by the JS property read `mimetypeMap[key]`: an own data
property (a string of the table), the inherited `__proto__` accessor result
(`Object.prototype`, a truthy object), or an inherited method / the
inherited `constructor` (a truthy function object, carrying the property
name it was read through). -/
inductive ExtValue where
  | str (s : JStr)
  | objectProtoObj
  | inheritedFn (name : JStr)
deriving DecidableEq, Repr

/-- The property names a plain object literal inherits from
`Object.prototype` (Node's standard environment); every one of them reads as
a truthy non-string value. -/
def objectProtoNames : List JStr :=
  ["constructor".toList, "hasOwnProperty".toList, "isPrototypeOf".toList,
   "propertyIsEnumerable".toList, "toLocaleString".toList, "toString".toList,
   "valueOf".toList, "__defineGetter__".toList, "__defineSetter__".toList,
   "__lookupGetter__".toList, "__lookupSetter__".toList, "__proto__".toList]

/-- The JS property read `mimetypeMap[key]`: own data properties shadow the
prototype; a miss falls through to `Object.prototype`; anything else is
`undefined` (modelled as `none`). -/
def mimetypeMapGet (key : JStr) : Option ExtValue :=
  match mimetypeMap.lookup key with
  | some e => some (.str e)
  | none =>
    if key = "__proto__".toList then some .objectProtoObj
    else if key ∈ objectProtoNames then some (.inheritedFn key)
    else none

/-- `getExtensionFromMimetype`: lowercase the argument and evaluate
`mimetypeMap[mimetype.toLowerCase()] || "bin"`. A found string is subject to
the falsy check of `||`; a truthy inherited non-string is returned as-is
(the fallback never fires for it); `undefined` falls back to "bin". -/
def getExtensionFromMimetype (m : JStr) : ExtValue :=
  match mimetypeMapGet (toLowerJs m) with
  | some (.str e) => .str (jsOrStr e "bin".toList)
  | some v => v
  | none => .str "bin".toList

/-- Template-literal stringification of a read value, as used by
`${parsedImage.extension}` in the default filename (V8 rendering for the
non-string cases). -/
def extDisplay : ExtValue → JStr
  | .str s => s
  | .objectProtoObj => "[object Object]".toList
  | .inheritedFn name =>
    if name = "constructor".toList then
      "function Object() \x7b [native code] \x7d".toList
    else
      "function ".toList ++ name ++ "() \x7b [native code] \x7d".toList

/-! ## Data-URL header matching (src/bas64.handler.ts, parseBase64Image, 8-50) -/

/-- Attempt to match the regex `data:([^;]+);base64` at the start of `l`,
returning the captured group: the literal "data:", then a maximal nonempty
run of non-semicolon characters, then the literal ";base64". -/
def dataHeaderCapture (l : JStr) : Option JStr :=
  if "data:".toList.isPrefixOf l then
    let rest := l.drop 5
    let cap := rest.takeWhile (fun c => !(c == ';'))
    let rest2 := rest.dropWhile (fun c => !(c == ';'))
    if cap.isEmpty then none
    else if ";base64".toList.isPrefixOf rest2 then some cap
    else none
  else none

/-- `header.match(/data:([^;]+);base64/)`: first (leftmost) match of the
unanchored pattern, returning the captured MIME type. The greedy `[^;]+`
cannot backtrack usefully because the following literal starts with the
excluded character, so only the maximal run can complete a match. -/
def matchDataUri : JStr → Option JStr
  | [] => none
  | c :: cs =>
    match dataHeaderCapture (c :: cs) with
    | some m => some m
    | none => matchDataUri cs

/-- The header-stripping prelude of `parseBase64Image` (lines 14-30): returns
the clean base64 body and the detected MIME type (default "image/jpeg"). -/
def cleanAndMime (s : JStr) : JStr × JStr :=
  if s.contains ',' then
    match splitOnChar ',' s with
    | [header, body] =>
      match matchDataUri header with
      | some m => (body, m)
      | none => (body, "image/jpeg".toList)
    | _ => (s, "image/jpeg".toList)
  else (s, "image/jpeg".toList)

/-- Result record of `parseBase64Image`. The `extension` field stores the
raw value of the extension lookup (the program only ever consumes it through
template-literal stringification). -/
structure ParsedImage where
  mimetype : JStr
  data : JStr
  extension : ExtValue
deriving DecidableEq, Repr

/-- `parseBase64Image` (lines 8-50): strip an optional data-URL header, reject
when the body fails `isValidBase64`, otherwise return the descriptor. -/
def parseBase64Image (s : JStr) : Option ParsedImage :=
  let cm := cleanAndMime s
  if isValidBase64 cm.1 then
    some ⟨cm.2, cm.1, getExtensionFromMimetype cm.2⟩
  else none

/-- Instrumented `parseBase64Image` that additionally counts base64-decoder
invocations (all of which happen inside `isValidBase64`). -/
def parseBase64ImageCount (s : JStr) : Option ParsedImage × Nat :=
  let cm := cleanAndMime s
  let vc := isValidBase64Count cm.1
  if vc.1 then
    (some ⟨cm.2, cm.1, getExtensionFromMimetype cm.2⟩, vc.2)
  else (none, vc.2)

theorem parseBase64ImageCount_fst (s : JStr) :
    (parseBase64ImageCount s).1 = parseBase64Image s := by
  unfold parseBase64ImageCount parseBase64Image isValidBase64Count isValidBase64
  by_cases h : base64RegexTest (cleanAndMime s).1 = true <;> simp [h]

/-! ## Job payload (src/Types.ts, WhatsAppMessage) -/

/-- The `type` tag of a queued job. -/
inductive MsgType where
  | text
  | media
  | base64
deriving DecidableEq, Repr

/-- The `options` record forwarded to the transport send call. -/
structure JobOptions where
  linkPreview : Option Bool := none
  isViewOnce : Option Bool := none
  sendAudioAsVoice : Option Bool := none
deriving DecidableEq, Repr

/-- A queued outbound job (`WhatsAppMessage` interface): `to` is a single
string or an array; the remaining fields are optional. -/
structure WhatsAppMessage where
  «to» : Sum JStr (List JStr)
  message : JStr
  type : Option MsgType := none
  mediaUrl : Option JStr := none
  base64Data : Option JStr := none
  mimetype : Option JStr := none
  filename : Option JStr := none
  caption : Option JStr := none
  options : Option JobOptions := none
deriving DecidableEq, Repr

/-- JS truthiness of an optional string field: present and nonempty. -/
def truthy (o : Option JStr) : Bool :=
  match o with
  | none => false
  | some s => !s.isEmpty

/-! ## Transport boundary -/

/-- A `MessageMedia` object handed to the transport. -/
structure MessageMedia where
  mimetype : JStr
  data : JStr
  filename : JStr
deriving DecidableEq, Repr

/-- The second argument of `client.sendMessage`. -/
inductive SendContent where
  | text (body : JStr)
  | media (m : MessageMedia)
deriving DecidableEq, Repr

/-- One invocation of `client.sendMessage`: address, content, the caption
field of the options object when present, and the forwarded job options. -/
structure SendCall where
  phone : JStr
  content : SendContent
  caption : Option JStr
  options : Option JobOptions
deriving DecidableEq, Repr

/-- A `fetch` response as used by the media branch. -/
structure FetchResponse where
  ok : Bool
  status : Nat
  statusText : JStr
  contentType : Option JStr
  body : List Nat

/-- The external world: the transport send operation (returning a serialized
message id or throwing), the HTTP fetch, and the clock read by `Date.now()`.
An `Except.error` value models a thrown exception with its message. -/
structure Env where
  send : SendCall → Except JStr JStr
  fetchResp : JStr → Except JStr FetchResponse
  now : Nat

/-- Per-recipient outcome record pushed into `results`. -/
structure DeliveryResult where
  recipient : JStr
  success : Bool
  messageId : Option JStr
  error : Option JStr
deriving DecidableEq, Repr

/-- Standard base64 encoding of a byte sequence
(`Buffer.from(buffer).toString("base64")`). -/
def b64Alphabet : JStr :=
  "ABCDEFGHIJKLMNOPQRSTUVWXYZabcdefghijklmnopqrstuvwxyz0123456789+/".toList

/-- Character of the base64 alphabet at index `k` (k < 64). -/
def b64Char (k : Nat) : Char := b64Alphabet.getD k 'A'

/-- Encode bytes three at a time with `=` padding. -/
def base64Encode : List Nat → JStr
  | [] => []
  | [a] => [b64Char (a / 4), b64Char (a % 4 * 16), '=', '=']
  | [a, b] => [b64Char (a / 4), b64Char (a % 4 * 16 + b / 16), b64Char (b % 16 * 4), '=']
  | a :: b :: c :: rest =>
    b64Char (a / 4) :: b64Char (a % 4 * 16 + b / 16) ::
    b64Char (b % 16 * 4 + c / 64) :: b64Char (c % 64) :: base64Encode rest

/-! ## Enhanced dispatcher (src/bas64.handler.ts, sendWhatsAppMessage, 96-246) -/

/-- Address resolution (lines 108-110): append the transport domain suffix
unless the recipient already contains it. -/
def phoneNumberOf (recipient : JStr) : JStr :=
  if "@c.us".toList <:+: recipient then recipient
  else recipient ++ "@c.us".toList

/-- The recipient expansion (lines 101-103): an array is used as-is; a single
string is split on commas and each token trimmed. -/
def recipientsOf (md : WhatsAppMessage) : List JStr :=
  match md.«to» with
  | .inr arr => arr
  | .inl s => (splitOnChar ',' s).map jsTrim

/-- The `type === "base64" && base64Data` branch (lines 114-169): parse the
payload, reject an empty decode, build the media object with the declared
mimetype and filename fallbacks, sanitize the caption fallback chain, and
send with the caption merged into the options only when it is nonempty.
Returns the outcome together with the send calls made. -/
def base64Branch (env : Env) (md : WhatsAppMessage) (phone : JStr) :
    Except JStr JStr × List SendCall :=
  match parseBase64Image (md.base64Data.getD []) with
  | none => (.error "Failed to parse base64 image data".toList, [])
  | some parsed =>
    if decodedLen parsed.data = 0 then
      (.error "Failed to decode base64 data: Error: Decoded image buffer is empty".toList, [])
    else
      let media : MessageMedia :=
        ⟨jsOrOpt md.mimetype parsed.mimetype,
         parsed.data,
         jsOrOpt md.filename
           ("image_".toList ++ natToChars env.now ++ ".".toList ++
            extDisplay parsed.extension)⟩
      let caption := sanitizeMessage (jsOrOpt md.caption md.message)
      let call : SendCall :=
        if caption.isEmpty then ⟨phone, .media media, none, md.options⟩
        else ⟨phone, .media media, some caption, md.options⟩
      (env.send call, [call])

/-- The `type === "media" && mediaUrl` branch (lines 170-208): fetch the
reference, treat a non-ok response as a thrown error, re-encode the body,
derive content type and filename with their fallbacks, and send as media. -/
def mediaBranch (env : Env) (md : WhatsAppMessage) (phone : JStr) :
    Except JStr JStr × List SendCall :=
  match env.fetchResp (md.mediaUrl.getD []) with
  | .error e => (.error e, [])
  | .ok resp =>
    if !resp.ok then
      (.error ("Failed to fetch media: ".toList ++ natToChars resp.status ++
               " ".toList ++ resp.statusText), [])
    else
      let base64Data := base64Encode resp.body
      let contentType := jsOrOpt resp.contentType "application/octet-stream".toList
      let filename :=
        jsOrOpt md.filename
          (jsOrStr ((splitOnChar '/' (md.mediaUrl.getD [])).getLastD []) "media".toList)
      let media : MessageMedia := ⟨contentType, base64Data, filename⟩
      let caption := sanitizeMessage (md.caption.getD [])
      let call : SendCall :=
        if caption.isEmpty then ⟨phone, .media media, none, md.options⟩
        else ⟨phone, .media media, some caption, md.options⟩
      (env.send call, [call])

/-- The plain-text fallback branch (lines 209-222): sanitize the message and
reject it when empty after sanitization. -/
def textBranch (env : Env) (md : WhatsAppMessage) (phone : JStr) :
    Except JStr JStr × List SendCall :=
  if (sanitizeMessage md.message).isEmpty then
    (.error "Message is empty after sanitization".toList, [])
  else
    (env.send ⟨phone, .text (sanitizeMessage md.message), none, md.options⟩,
     [⟨phone, .text (sanitizeMessage md.message), none, md.options⟩])

/-- Delivery-mode selection: the if / else-if / else chain of the loop body. -/
def recipientAttempt (env : Env) (md : WhatsAppMessage) (phone : JStr) :
    Except JStr JStr × List SendCall :=
  if md.type = some MsgType.base64 ∧ truthy md.base64Data = true then
    base64Branch env md phone
  else if md.type = some MsgType.media ∧ truthy md.mediaUrl = true then
    mediaBranch env md phone
  else textBranch env md phone

/-- Outcome recording (lines 224-238): a success pushes the resolved address
and message id; a caught exception pushes the raw recipient and the error. -/
def finishRecipient (recipient phone : JStr) : Except JStr JStr → DeliveryResult
  | .ok mid => ⟨phone, true, some mid, none⟩
  | .error e => ⟨recipient, false, none, some e⟩

/-- One iteration of the recipient loop: the whole body runs inside a
try/catch, so it always produces exactly one result. -/
def processRecipient (env : Env) (md : WhatsAppMessage) (recipient : JStr) :
    DeliveryResult × List SendCall :=
  (finishRecipient recipient (phoneNumberOf recipient)
     (recipientAttempt env md (phoneNumberOf recipient)).1,
   (recipientAttempt env md (phoneNumberOf recipient)).2)

/-- The `for (const recipient of recipients)` loop, pushing one result per
recipient and accumulating the transport calls made. -/
def dispatchLoop (env : Env) (md : WhatsAppMessage) :
    List JStr → List DeliveryResult × List SendCall
  | [] => ([], [])
  | r :: rs =>
    let first := processRecipient env md r
    let rest := dispatchLoop env md rs
    (first.1 :: rest.1, first.2 ++ rest.2)

/-- `sendWhatsAppMessage` (src/bas64.handler.ts lines 96-246): expand the
recipients and run the loop. In the typed model nothing escapes the loop, so
the outer try/catch is inert and the function returns the result list. -/
def sendWhatsAppMessage (env : Env) (md : WhatsAppMessage) :
    List DeliveryResult × List SendCall :=
  dispatchLoop env md (recipientsOf md)

/-! ## Queue consumer (src/server2.ts, validateMessageData 125-141 and
consumeMessages 175-210) -/

/-- `validateMessageData`: a falsy `to` or no content field at all fails. -/
def validateMessageData (md : WhatsAppMessage) : Bool :=
  match md.«to» with
  | .inl s => if s.isEmpty then false
              else !(md.message.isEmpty && !truthy md.base64Data && !truthy md.mediaUrl)
  | .inr _ => !(md.message.isEmpty && !truthy md.base64Data && !truthy md.mediaUrl)

/-- The acknowledgement decision taken for one queue delivery. -/
inductive ConsumeOutcome where
  | ack
  | nackRequeue
  | nackDeadLetter
deriving DecidableEq, Repr

/-- The body of the `consume` callback (lines 181-209). `parsed` is the
outcome of `JSON.parse` (`none` models a thrown parse error), `ready` models
`client.info` being set, and `dispatched` is the outcome of the awaited
`sendWhatsAppMessage` call (`Except.error` models an escaping exception). -/
def consumeOne (parsed : Option WhatsAppMessage) (ready : Bool)
    (dispatched : Except JStr (List DeliveryResult)) : ConsumeOutcome :=
  match parsed with
  | none => .nackDeadLetter
  | some md =>
    if !validateMessageData md then .nackDeadLetter
    else if !ready then .nackRequeue
    else
      match dispatched with
      | .ok _ => .ack
      | .error _ => .nackDeadLetter

/-! ## Shared helper lemmas and concrete fixtures -/

/-- The results of the recipient loop are exactly the per-recipient outcome
applied to each recipient in order. -/
theorem dispatchLoop_results (env : Env) (md : WhatsAppMessage) (l : List JStr) :
    (dispatchLoop env md l).1 = l.map (fun r => (processRecipient env md r).1) := by
  induction l with
  | nil => rfl
  | cons a t ih => simp [dispatchLoop, ih]

/-- A successful association-list lookup returns a stored value. -/
theorem lookup_val_mem [BEq α] (l : List (α × β)) (k : α) (v : β)
    (h : l.lookup k = some v) : ∃ a, (a, v) ∈ l := by
  induction l with
  | nil => simp [List.lookup] at h
  | cons p t ih =>
    rw [List.lookup] at h
    cases hk : (k == p.1) with
    | true =>
      rw [hk] at h
      cases h
      exact ⟨p.1, by left⟩
    | false =>
      rw [hk] at h
      obtain ⟨a, ha⟩ := ih h
      exact ⟨a, by right; exact ha⟩

/-- `Char.ofNat` round-trips on valid code points. -/
theorem toNat_ofNat_of_valid {n : Nat} (h : n.isValidChar) :
    (Char.ofNat n).toNat = n := by
  unfold Char.ofNat
  rw [dif_pos h]
  rfl

/-- `Char.toLower` never produces an ASCII uppercase letter. -/
theorem toLower_not_upper (a : Char) :
    ¬(65 ≤ (Char.toLower a).toNat ∧ (Char.toLower a).toNat ≤ 90) := by
  simp only [Char.toLower]
  by_cases h : a.toNat ≥ 65 ∧ a.toNat ≤ 90
  · rw [if_pos h, toNat_ofNat_of_valid (Or.inl (by omega))]
    omega
  · rw [if_neg h]
    omega

/-- No character of a lowercased string is an ASCII uppercase letter. -/
theorem toLowerJs_no_upper {m : JStr} {c : Char} (hc : c ∈ toLowerJs m) :
    ¬(65 ≤ c.toNat ∧ c.toNat ≤ 90) := by
  obtain ⟨a, -, rfl⟩ := List.mem_map.mp hc
  exact toLower_not_upper a

/-- Of the inherited `Object.prototype` property names, only "constructor"
and "__proto__" contain no uppercase letter, so only they are reachable
through `toLowerCase`. -/
theorem protoNames_reachable {m : JStr} (h : toLowerJs m ∈ objectProtoNames) :
    toLowerJs m = "constructor".toList ∨ toLowerJs m = "__proto__".toList := by
  simp only [objectProtoNames, List.mem_cons, List.not_mem_nil, or_false] at h
  rcases h with h|h|h|h|h|h|h|h|h|h|h|h
  · exact Or.inl h
  · exact absurd (by decide)
      (toLowerJs_no_upper (c := 'O') (by rw [h]; decide))
  · exact absurd (by decide)
      (toLowerJs_no_upper (c := 'P') (by rw [h]; decide))
  · exact absurd (by decide)
      (toLowerJs_no_upper (c := 'I') (by rw [h]; decide))
  · exact absurd (by decide)
      (toLowerJs_no_upper (c := 'L') (by rw [h]; decide))
  · exact absurd (by decide)
      (toLowerJs_no_upper (c := 'S') (by rw [h]; decide))
  · exact absurd (by decide)
      (toLowerJs_no_upper (c := 'O') (by rw [h]; decide))
  · exact absurd (by decide)
      (toLowerJs_no_upper (c := 'G') (by rw [h]; decide))
  · exact absurd (by decide)
      (toLowerJs_no_upper (c := 'S') (by rw [h]; decide))
  · exact absurd (by decide)
      (toLowerJs_no_upper (c := 'G') (by rw [h]; decide))
  · exact absurd (by decide)
      (toLowerJs_no_upper (c := 'S') (by rw [h]; decide))
  · exact Or.inr h

/-- `parseBase64Image` returns the clean body as the `data` field. -/
theorem parseBase64Image_data {s : JStr} {p : ParsedImage}
    (h : parseBase64Image s = some p) : p.data = (cleanAndMime s).1 := by
  unfold parseBase64Image at h
  by_cases hv : isValidBase64 (cleanAndMime s).1 = true
  · rw [if_pos hv] at h
    cases h
    rfl
  · rw [if_neg hv] at h
    cases h

/-- A transport whose send operation always throws and whose fetch fails. -/
def envFail : Env :=
  ⟨fun _ => .error "boom".toList, fun _ => .error "offline".toList, 0⟩

/-- A transport whose send operation always succeeds. -/
def envOk : Env :=
  ⟨fun _ => .ok "id0".toList, fun _ => .error "offline".toList, 0⟩

/-- A plain-text job addressed by a single string. -/
def mdText : WhatsAppMessage :=
  ⟨Sum.inl "100".toList, "hi".toList, none, none, none, none, none, none, none⟩

/-- A plain-text job whose single-string address contains a comma. -/
def mdSplit : WhatsAppMessage :=
  ⟨Sum.inl "100, 200".toList, "hi".toList, none, none, none, none, none, none, none⟩

/-- A job tagged base64 but with an empty payload. -/
def mdEmptyB64 : WhatsAppMessage :=
  ⟨Sum.inl "100".toList, [], some MsgType.base64, none, some [], none, none, none, none⟩

/-- A base64 job whose payload decodes to zero bytes. -/
def mdZeroB64 : WhatsAppMessage :=
  ⟨Sum.inl "100".toList, "x".toList, some MsgType.base64, none,
   some "data:image/png;base64,".toList, none, none, none, none⟩

/-- The end-to-end job of the spec: a base64 PNG data URL with no caption and
no message. -/
def jobPng : WhatsAppMessage :=
  ⟨Sum.inl "15551230000".toList, [], some MsgType.base64, none,
   some "data:image/png;base64,aGVsbG8=".toList, none, none, none, none⟩

/-! ## Claims -/

/-- C4: for every input string, `sanitizeMessage` only removes characters
(the output is a sublist of the input), no character of the removed control
ranges (0x00-0x08, 0x0B, 0x0C, 0x0E-0x1F, 0x7F-0x9F) and no byte-order mark
survives, and the result carries no leading or trailing JS whitespace. -/
theorem sanitize_removes_controls (x : JStr) :
    List.Sublist (sanitizeMessage x) x ∧
    (∀ c ∈ sanitizeMessage x, isRemovedCtrl c = false ∧ isBOM c = false) ∧
    (∀ c, (sanitizeMessage x).head? = some c → isJsWs c = false) ∧
    (∀ c, (sanitizeMessage x).getLast? = some c → isJsWs c = false) := by
  by_cases hx : x = []
  · subst hx
    exact ⟨List.Sublist.refl _, fun c hc => absurd hc (by simp [sanitizeMessage]),
           fun c hc => by simp [sanitizeMessage] at hc,
           fun c hc => by simp [sanitizeMessage] at hc⟩
  · have hdef : sanitizeMessage x =
        jsTrim ((x.filter (fun c => !isRemovedCtrl c)).filter (fun c => !isBOM c)) := by
      simp only [sanitizeMessage, if_neg hx]
    refine ⟨?_, fun c hc => sanitize_mem hc, ?_, ?_⟩
    · rw [hdef]
      exact (jsTrim_sublist _).trans
        ((List.filter_sublist _).trans (List.filter_sublist _))
    · intro c hc
      rw [hdef] at hc
      exact jsTrim_head _ hc
    · intro c hc
      rw [hdef] at hc
      exact jsTrim_getLast _ hc

/-- Witness for C4 at the concrete input " h\u0000 ". -/
theorem sanitize_removes_controls_witness :
    isRemovedCtrl 'h' = false ∧ isBOM 'h' = false :=
  (sanitize_removes_controls " h\u0000 ".toList).2.1 'h' (by decide)

/-- C7: `sanitizeMessage` is idempotent. -/
theorem sanitize_idem (x : JStr) :
    sanitizeMessage (sanitizeMessage x) = sanitizeMessage x := by
  by_cases hx : x = []
  · subst hx; rfl
  · by_cases hy : sanitizeMessage x = []
    · rw [hy]
      rfl
    · rw [sanitize_ne_nil_def hy, sanitize_filter_eq, sanitize_ne_nil_def hx]
      exact jsTrim_idem _

/-- C1: dispatch produces exactly one result per recipient, in listing order,
each result being a function of that recipient alone (so one recipient's
caught failure cannot abort or alter the others), and every failed slot
records the raw recipient together with an error description. -/
theorem dispatch_one_result_per_recipient (env : Env) (md : WhatsAppMessage) :
    (sendWhatsAppMessage env md).1 =
      (recipientsOf md).map (fun r => (processRecipient env md r).1) ∧
    (sendWhatsAppMessage env md).1.length = (recipientsOf md).length ∧
    (∀ r, (processRecipient env md r).1.success = false →
      ∃ e, (processRecipient env md r).1 =
        ⟨r, false, none, some e⟩) := by
  refine ⟨dispatchLoop_results env md _, ?_, ?_⟩
  · rw [sendWhatsAppMessage, dispatchLoop_results]
    exact List.length_map _ _
  · intro r h
    unfold processRecipient at h ⊢
    cases ha : (recipientAttempt env md (phoneNumberOf r)).1 with
    | ok mid =>
      rw [ha] at h
      simp [finishRecipient] at h
    | error e =>
      exact ⟨e, rfl⟩

/-- Witness for C1: with a throwing transport, the failed slot of the job
`mdText` records the raw recipient and an error. -/
theorem dispatch_one_result_per_recipient_witness :
    ∃ e, (processRecipient envFail mdText "100".toList).1 =
      ⟨"100".toList, false, none, some e⟩ :=
  (dispatch_one_result_per_recipient envFail mdText).2.2 "100".toList (by decide)

/-- C9: a single-string `to` field is split on commas with each token
trimmed, so a string with k commas produces k + 1 recipient attempts and
k + 1 result entries. -/
theorem single_string_recipients (env : Env) (md : WhatsAppMessage) (s : JStr)
    (h : md.«to» = Sum.inl s) :
    recipientsOf md = (splitOnChar ',' s).map jsTrim ∧
    (sendWhatsAppMessage env md).1.length = s.count ',' + 1 := by
  have h1 : recipientsOf md = (splitOnChar ',' s).map jsTrim := by
    unfold recipientsOf
    rw [h]
  refine ⟨h1, ?_⟩
  rw [sendWhatsAppMessage, dispatchLoop_results, List.length_map, h1,
      List.length_map, splitOnChar_length]

/-- Witness for C9: the address "100, 200" (one comma) yields two attempts. -/
theorem single_string_recipients_witness :
    recipientsOf mdSplit = (splitOnChar ',' "100, 200".toList).map jsTrim ∧
    (sendWhatsAppMessage envFail mdSplit).1.length =
      "100, 200".toList.count ',' + 1 :=
  single_string_recipients envFail mdSplit "100, 200".toList rfl

/-- C10: a media-type tag without its payload field selects the plain-text
branch: a base64-tagged job with falsy `base64Data`, or a media-tagged job
with falsy `mediaUrl`, is processed as text, and fails with the
empty-after-sanitization error when the sanitized message is empty. -/
theorem type_tag_alone_never_media (env : Env) (md : WhatsAppMessage) (r : JStr)
    (h : (md.type = some MsgType.base64 ∧ truthy md.base64Data = false) ∨
         (md.type = some MsgType.media ∧ truthy md.mediaUrl = false)) :
    recipientAttempt env md (phoneNumberOf r) = textBranch env md (phoneNumberOf r) ∧
    (sanitizeMessage md.message = [] →
      (processRecipient env md r).1 =
        ⟨r, false, none, some "Message is empty after sanitization".toList⟩) := by
  have hb : ¬(md.type = some MsgType.base64 ∧ truthy md.base64Data = true) := by
    rcases h with ⟨h1, h2⟩ | ⟨h1, h2⟩
    · rintro ⟨-, hh⟩
      rw [h2] at hh
      cases hh
    · rintro ⟨ht, -⟩
      rw [h1] at ht
      cases ht
  have hm : ¬(md.type = some MsgType.media ∧ truthy md.mediaUrl = true) := by
    rcases h with ⟨h1, h2⟩ | ⟨h1, h2⟩
    · rintro ⟨ht, -⟩
      rw [h1] at ht
      cases ht
    · rintro ⟨-, hh⟩
      rw [h2] at hh
      cases hh
  have hatt : recipientAttempt env md (phoneNumberOf r) =
      textBranch env md (phoneNumberOf r) := by
    unfold recipientAttempt
    rw [if_neg hb, if_neg hm]
  refine ⟨hatt, ?_⟩
  intro hs
  unfold processRecipient
  rw [hatt]
  unfold textBranch
  rw [hs]
  rfl

/-- Witness for C10: a base64-tagged job with an empty payload and empty
message fails as text. -/
theorem type_tag_alone_never_media_witness :
    recipientAttempt envOk mdEmptyB64 (phoneNumberOf "100".toList) =
      textBranch envOk mdEmptyB64 (phoneNumberOf "100".toList) ∧
    (sanitizeMessage mdEmptyB64.message = [] →
      (processRecipient envOk mdEmptyB64 "100".toList).1 =
        ⟨"100".toList, false, none,
         some "Message is empty after sanitization".toList⟩) :=
  type_tag_alone_never_media envOk mdEmptyB64 "100".toList (Or.inl ⟨rfl, by decide⟩)

/-- C3 counterexample: the payload "data:image/png;base64," is valid base64
that decodes to zero bytes, yet `parseBase64Image` returns a successful
descriptor, not an error. -/
theorem parse_empty_decode_returns_descriptor :
    parseBase64Image "data:image/png;base64,".toList =
      some ⟨"image/png".toList, [], ExtValue.str "png".toList⟩ ∧
    decodedLen (cleanAndMime "data:image/png;base64,".toList).1 = 0 := by
  constructor
  · rfl
  · rfl

/-- C3 amended: the zero-length-decode rejection lives in the dispatcher, not
in `parseBase64Image`: in the base64 branch a payload decoding to zero bytes
always yields a failed per-recipient result and no transport send call. -/
theorem zero_decode_never_sends (env : Env) (md : WhatsAppMessage) (r : JStr)
    (ht : md.type = some MsgType.base64) (hd : truthy md.base64Data = true)
    (h0 : decodedLen (cleanAndMime (md.base64Data.getD [])).1 = 0) :
    (processRecipient env md r).1.success = false ∧
    (processRecipient env md r).2 = [] := by
  unfold processRecipient recipientAttempt
  rw [if_pos ⟨ht, hd⟩]
  unfold base64Branch
  cases hp : parseBase64Image (md.base64Data.getD []) with
  | none => exact ⟨rfl, rfl⟩
  | some parsed =>
    have hpd : parsed.data = (cleanAndMime (md.base64Data.getD [])).1 :=
      parseBase64Image_data hp
    simp [hpd, h0, finishRecipient]

/-- Witness for amended C3: the job `mdZeroB64` carries a zero-byte payload
and fails even over a transport whose sends always succeed. -/
theorem zero_decode_never_sends_witness :
    (processRecipient envOk mdZeroB64 "100".toList).1.success = false ∧
    (processRecipient envOk mdZeroB64 "100".toList).2 = [] :=
  zero_decode_never_sends envOk mdZeroB64 "100".toList rfl (by decide) (by decide)

/-- C5: a payload whose base64 body fails the alphabet regex is rejected by
`parseBase64Image` with the null result, and the base64 decoder is never
invoked on it (the decode of `isValidBase64` runs only after the regex test
has passed). -/
theorem invalid_base64_rejected_without_decode (s : JStr)
    (h : base64RegexTest (cleanAndMime s).1 = false) :
    parseBase64Image s = none ∧ (parseBase64ImageCount s).2 = 0 := by
  unfold parseBase64Image parseBase64ImageCount isValidBase64 isValidBase64Count
  simp [h]

/-- Witness for C5 at the concrete body "***". -/
theorem invalid_base64_rejected_without_decode_witness :
    parseBase64Image "***".toList = none ∧
    (parseBase64ImageCount "***".toList).2 = 0 :=
  invalid_base64_rejected_without_decode "***".toList (by decide)

/-- C6 counterexample: two unmapped inputs that do not return "bin".
"IMAGE/PNG" is not a key of the static table, yet the lookup returns "png"
(the lookup lowercases first); "constructor" and "__proto__" are not keys
either, yet the plain-object read finds the truthy inherited values of
`Object.prototype`, so the `|| "bin"` fallback never fires for them. -/
theorem extension_fallback_counterexample :
    getExtensionFromMimetype "IMAGE/PNG".toList = ExtValue.str "png".toList ∧
    mimetypeMap.lookup "IMAGE/PNG".toList = none ∧
    getExtensionFromMimetype "constructor".toList =
      ExtValue.inheritedFn "constructor".toList ∧
    getExtensionFromMimetype "__proto__".toList = ExtValue.objectProtoObj ∧
    ExtValue.str "png".toList ≠ ExtValue.str "bin".toList := by
  refine ⟨rfl, rfl, rfl, rfl, by decide⟩

/-- C6 amended: `getExtensionFromMimetype` is total by construction (never
throws) and evaluates a case-insensitive property read on the table object
including its prototype: every table key returns its extension; any string
whose lowercasing is a table key returns that key's extension; a string
lowercasing to "constructor" or "__proto__" returns the corresponding truthy
inherited non-string value, not "bin"; any other string returns the
fallback "bin" (the remaining inherited names contain uppercase letters and
are unreachable through `toLowerCase`). -/
theorem extension_lookup_total (m : JStr) :
    (∀ kv ∈ mimetypeMap, getExtensionFromMimetype kv.1 = ExtValue.str kv.2) ∧
    (∀ v, mimetypeMap.lookup (toLowerJs m) = some v →
      getExtensionFromMimetype m = ExtValue.str v) ∧
    (toLowerJs m = "constructor".toList →
      getExtensionFromMimetype m = ExtValue.inheritedFn "constructor".toList) ∧
    (toLowerJs m = "__proto__".toList →
      getExtensionFromMimetype m = ExtValue.objectProtoObj) ∧
    (mimetypeMap.lookup (toLowerJs m) = none →
      toLowerJs m ≠ "constructor".toList → toLowerJs m ≠ "__proto__".toList →
      getExtensionFromMimetype m = ExtValue.str "bin".toList) := by
  refine ⟨by decide, ?_, ?_, ?_, ?_⟩
  · intro v hv
    obtain ⟨k, hk⟩ := lookup_val_mem _ _ _ hv
    have hvals : ∀ kv ∈ mimetypeMap, kv.2.isEmpty = false := by decide
    have hne := hvals (k, v) hk
    simp [getExtensionFromMimetype, mimetypeMapGet, hv, jsOrStr, hne]
  · intro hc
    unfold getExtensionFromMimetype mimetypeMapGet
    rw [hc]
    rfl
  · intro hp
    unfold getExtensionFromMimetype mimetypeMapGet
    rw [hp]
    rfl
  · intro hn hc hp
    have hnp : toLowerJs m ∉ objectProtoNames := by
      intro hmem
      rcases protoNames_reachable hmem with h | h
      · exact hc h
      · exact hp h
    simp only [getExtensionFromMimetype, mimetypeMapGet, hn]
    rw [if_neg hp, if_neg hnp]

/-- Witness for amended C6: the unmapped type "text/html" falls back. -/
theorem extension_lookup_total_witness :
    getExtensionFromMimetype "text/html".toList = ExtValue.str "bin".toList :=
  (extension_lookup_total "text/html".toList).2.2.2.2 (by decide) (by decide)
    (by decide)

/-- C8: the job with base64 payload "data:image/png;base64,aGVsbG8=" and no
caption or message makes exactly one transport call: media with resolved
mimetype "image/png" and a derived filename ending in ".png", with no caption
field in the call. -/
theorem png_job_sends_no_caption (env : Env) :
    (sendWhatsAppMessage env jobPng).2 =
      [⟨"15551230000@c.us".toList,
        SendContent.media ⟨"image/png".toList, "aGVsbG8=".toList,
          "image_".toList ++ natToChars env.now ++ ".".toList ++ "png".toList⟩,
        none, none⟩] ∧
    ".png".toList <:+
      ("image_".toList ++ natToChars env.now ++ ".".toList ++ "png".toList) := by
  constructor
  · rfl
  · have hdp : ".".toList ++ "png".toList = ".png".toList := by decide
    have he : "image_".toList ++ natToChars env.now ++ ".".toList ++ "png".toList
        = ("image_".toList ++ natToChars env.now) ++ ".png".toList := by
      rw [List.append_assoc, hdp]
    rw [he]
    exact List.suffix_append _ _

/-- C2: routing of one queue delivery. Malformed JSON or a job failing
validation is dead-lettered; a validated job with the client not ready is
requeued; a completed dispatch — whatever its per-recipient results — is
acked; a dispatch that throws is dead-lettered. The final conjunct
instantiates the dispatch outcome with the (total) dispatcher itself. -/
theorem consumer_routing (parsed : Option WhatsAppMessage) (ready : Bool)
    (d : Except JStr (List DeliveryResult)) :
    (parsed = none → consumeOne parsed ready d = ConsumeOutcome.nackDeadLetter) ∧
    (∀ md, parsed = some md → validateMessageData md = false →
      consumeOne parsed ready d = ConsumeOutcome.nackDeadLetter) ∧
    (∀ md, parsed = some md → validateMessageData md = true → ready = false →
      consumeOne parsed ready d = ConsumeOutcome.nackRequeue) ∧
    (∀ md results, parsed = some md → validateMessageData md = true →
      ready = true → d = Except.ok results →
      consumeOne parsed ready d = ConsumeOutcome.ack) ∧
    (∀ md e, parsed = some md → validateMessageData md = true → ready = true →
      d = Except.error e →
      consumeOne parsed ready d = ConsumeOutcome.nackDeadLetter) ∧
    (∀ md env, parsed = some md → validateMessageData md = true → ready = true →
      consumeOne parsed ready (Except.ok (sendWhatsAppMessage env md).1) =
        ConsumeOutcome.ack) := by
  refine ⟨?_, ?_, ?_, ?_, ?_, ?_⟩
  · rintro rfl
    rfl
  · rintro md rfl hv
    simp [consumeOne, hv]
  · rintro md rfl hv hr
    subst hr
    simp [consumeOne, hv]
  · rintro md results rfl hv hr rfl
    subst hr
    simp [consumeOne, hv]
  · rintro md e rfl hv hr rfl
    subst hr
    simp [consumeOne, hv]
  · rintro md env rfl hv hr
    subst hr
    simp [consumeOne, hv]

/-- Witness for C2: a malformed delivery is dead-lettered. -/
theorem consumer_routing_witness :
    consumeOne none true (Except.ok []) = ConsumeOutcome.nackDeadLetter :=
  (consumer_routing none true (Except.ok [])).1 rfl

end WhatsappBot
